import Mathlib

/-!
Verification of `scripts/generate-banner-v2.py` (and by extension the claims made
about it in the design document). The Python script is shallowly embedded below:
pure arithmetic on Python floats is modelled by exact rational arithmetic `ℚ`
(every literal the script manipulates is a small decimal, and all quantities the
theorems inspect are far from float-rounding boundaries), Python `int(...)`
truncation is modelled by `pyInt`, Python `//` on nonnegative integers by `Int`
division, and the Pillow drawing calls are modelled by explicit primitive lists
and pixel functions further below.
-/

/-- Model of Python `int(...)` applied to a real quantity: truncation toward
zero (floor for nonnegative arguments, ceiling for negative ones). -/
def pyInt (q : ℚ) : ℤ := if 0 ≤ q then ⌊q⌋ else ⌈q⌉

/-- On nonnegative arguments Python truncation is the floor. -/
lemma pyInt_of_nonneg {q : ℚ} (h : 0 ≤ q) : pyInt q = ⌊q⌋ := if_pos h

/-- Lower bound for `pyInt` on nonnegative arguments. -/
lemma le_pyInt {q : ℚ} {n : ℤ} (h0 : 0 ≤ q) (h : (n : ℚ) ≤ q) : n ≤ pyInt q := by
  rw [pyInt_of_nonneg h0]
  exact Int.le_floor.mpr h

/-- Upper bound for `pyInt` on nonnegative arguments. -/
lemma pyInt_le {q : ℚ} {n : ℤ} (h0 : 0 ≤ q) (h : q ≤ (n : ℚ)) : pyInt q ≤ n := by
  rw [pyInt_of_nonneg h0]
  have := Int.floor_le_floor h
  simpa using this

/-- The truncation never exceeds its argument (nonnegative case). -/
lemma pyInt_cast_le {q : ℚ} (h : 0 ≤ q) : ((pyInt q : ℤ) : ℚ) ≤ q := by
  rw [pyInt_of_nonneg h]
  exact Int.floor_le q

/-!
### Gradient overlay (source lines 78-95)

The script builds the overlay column by column:

    for i in range(width):
        ratio = i / width
        if ratio < 0.5:
            t = ratio * 2
            r = int(102 + (14 - 102) * t); g = int(126 + (165 - 126) * t); b = int(234 + (233 - 234) * t)
        else:
            t = (ratio - 0.5) * 2
            r = int(14 + (244 - 14) * t); g = int(165 + (114 - 165) * t); b = int(233 + (182 - 233) * t)
        alpha = int(25 + 10 * abs(ratio - 0.5) * 2)
        grad_draw.line([(i, 0), (i, height)], fill=(r, g, b, alpha))

with `width = 1200`.
-/

/-- RGB value of gradient column `i`, exactly as computed by the loop body. -/
def gradColor (i : ℕ) : ℤ × ℤ × ℤ :=
  let rr : ℚ := (i : ℚ) / 1200
  if rr < 1/2 then
    let t := rr * 2
    (pyInt (102 + (14 - 102) * t), pyInt (126 + (165 - 126) * t), pyInt (234 + (233 - 234) * t))
  else
    let t := (rr - 1/2) * 2
    (pyInt (14 + (244 - 14) * t), pyInt (165 + (114 - 165) * t), pyInt (233 + (182 - 233) * t))

/-- Alpha value of gradient column `i`: `int(25 + 10 * abs(ratio - 0.5) * 2)`. -/
def gradAlpha (i : ℕ) : ℤ :=
  pyInt (25 + 10 * |(i : ℚ) / 1200 - 1/2| * 2)

/-- Alpha conversion at the top of `draw_icon` (line 13): `alpha = int(opacity * 255)`. -/
def icon_alpha (opacity : ℚ) : ℤ := pyInt (opacity * 255)

/-- Two-color linear interpolation of one channel, following the specification
wording: the channel value is the linear interpolation `a + (b - a) * t`
truncated to an integer.  This definition is written from the specification, to
be compared with `gradColor`, which is written from the source. -/
def lerpChannel (a b t : ℚ) : ℤ := pyInt (a + (b - a) * t)

/-- Two-color linear interpolation of a full RGB triple (specification model). -/
def lerp3 (c1 c2 : ℚ × ℚ × ℚ) (t : ℚ) : ℤ × ℤ × ℤ :=
  (lerpChannel c1.1 c2.1 t, lerpChannel c1.2.1 c2.2.1 t, lerpChannel c1.2.2 c2.2.2 t)

/-- Gradient column color as described by the specification: interpolate
purple to cyan with parameter `2 r` on the first half, cyan to pink with
parameter `2 (r - 1/2)` on the second half. -/
def gradColorSpec (i : ℕ) : ℤ × ℤ × ℤ :=
  let r : ℚ := (i : ℚ) / 1200
  if r < 1/2 then lerp3 (102, 126, 234) (14, 165, 233) (2 * r)
  else lerp3 (14, 165, 233) (244, 114, 182) (2 * (r - 1/2))

/-- Helper: the gradient alpha of every column lies in `[25, 35]`. -/
lemma gradAlpha_bounds (i : ℕ) (h : i < 1200) : 25 ≤ gradAlpha i ∧ gradAlpha i ≤ 35 := by
  have hi0 : (0 : ℚ) ≤ (i : ℚ) := Nat.cast_nonneg i
  have hi1 : (i : ℚ) ≤ 1199 := by exact_mod_cast Nat.le_of_lt_succ h
  unfold gradAlpha
  rcases abs_cases ((i : ℚ) / 1200 - 1/2) with ⟨habs, hsgn⟩ | ⟨habs, hsgn⟩ <;> rw [habs] <;>
    exact ⟨le_pyInt (by linarith) (by push_cast; linarith),
           pyInt_le (by linarith) (by push_cast; linarith)⟩

/-- Helper: value of the gradient alpha at the exact center column. -/
lemma gradAlpha_center : gradAlpha 600 = 25 := by
  have : |(600 : ℚ) / 1200 - 1/2| = 0 := by norm_num
  unfold gradAlpha
  rw [show ((600 : ℕ) : ℚ) = 600 by norm_num, this, pyInt_of_nonneg (by norm_num)]
  norm_num

/-- Helper: value of the gradient alpha at the leftmost column. -/
lemma gradAlpha_left : gradAlpha 0 = 35 := by
  have : |(0 : ℚ) / 1200 - 1/2| = 1/2 := by norm_num
  unfold gradAlpha
  rw [show ((0 : ℕ) : ℚ) = 0 by norm_num, this, pyInt_of_nonneg (by norm_num)]
  norm_num

/-- C1, counterexample: the claim says the column alpha is maximal at the
center column and minimal at the edges; in fact the code computes alpha 25 at
the center column 600 and alpha 35 at the leftmost column 0, so the center is
not greater than or equal to the left edge. -/
theorem gradient_alpha_center_not_max :
    gradAlpha 600 = 25 ∧ gradAlpha 0 = 35 ∧ ¬ gradAlpha 0 ≤ gradAlpha 600 := by
  refine ⟨gradAlpha_center, gradAlpha_left, ?_⟩
  rw [gradAlpha_center, gradAlpha_left]
  norm_num

/-- C1, amended: the column-alpha function `int(25 + 10 * abs(i/width - 0.5) * 2)`
attains its minimum at the center column and its maximum at the leftmost
column: for every column `i` of the 1200-wide banner, the alpha at the center
column 600 is less than or equal to the alpha at `i`, which in turn is less
than or equal to the alpha at column 0 (the band is more opaque at the edges
and fades toward the center, the opposite of the claimed direction). -/
theorem gradient_alpha_min_at_center (i : ℕ) (h : i < 1200) :
    gradAlpha 600 ≤ gradAlpha i ∧ gradAlpha i ≤ gradAlpha 0 := by
  have hb := gradAlpha_bounds i h
  rw [gradAlpha_center, gradAlpha_left]
  exact ⟨hb.1, hb.2⟩

/-- C1, witness: the amended statement at the concrete column 7. -/
theorem gradient_alpha_min_at_center_witness :
    gradAlpha 600 ≤ gradAlpha 7 ∧ gradAlpha 7 ≤ gradAlpha 0 :=
  gradient_alpha_min_at_center 7 (by norm_num)

/-- C4, counterexample: the claim says the 8-bit alpha equals
`round(opacity * 255)` and in particular opacity 0.10 yields 26; in fact
`draw_icon` computes `int(opacity * 255)`, which truncates: at opacity
0.10 the code produces 25 while rounding would produce 26. -/
theorem icon_alpha_not_round_at_tenth :
    icon_alpha (1/10) = 25 ∧ round ((1/10 : ℚ) * 255) = 26 := by
  constructor
  · rw [icon_alpha, pyInt_of_nonneg (by norm_num)]
    norm_num
  · rw [round_eq]
    norm_num

/-- C4, amended: for every opacity in `[0, 1]` the 8-bit alpha channel value
combined with the base color equals `int(opacity * 255)`, i.e. the floor of
`opacity * 255` (truncation toward zero, not rounding to nearest: opacity 0.10
yields alpha 25 and opacity 0.15 yields alpha 38), and this value always lies
in `[0, 255]`. -/
theorem icon_alpha_truncates (q : ℚ) (h0 : 0 ≤ q) (h1 : q ≤ 1) :
    icon_alpha q = ⌊q * 255⌋ ∧ 0 ≤ icon_alpha q ∧ icon_alpha q ≤ 255 := by
  have hq : 0 ≤ q * 255 := by positivity
  refine ⟨pyInt_of_nonneg hq, le_pyInt hq (by push_cast; linarith), pyInt_le hq (by push_cast; linarith)⟩

/-- C4, witness: the amended statement at the concrete opacity 0.15. -/
theorem icon_alpha_truncates_witness :
    icon_alpha (3/20) = ⌊(3/20 : ℚ) * 255⌋ ∧ 0 ≤ icon_alpha (3/20) ∧ icon_alpha (3/20) ≤ 255 :=
  icon_alpha_truncates (3/20) (by norm_num) (by norm_num)

/-- C7: for every column `i` of the 1200-wide banner, the gradient overlay
color computed by the loop body equals the two-color linear interpolation of
the specification: purple `(102, 126, 234)` to cyan `(14, 165, 233)` with
parameter `t = 2 r` when `r = i / width < 1/2`, and cyan to pink
`(244, 114, 182)` with parameter `t = 2 (r - 1/2)` otherwise, each channel
truncated to an integer. -/
theorem gradient_color_matches_lerp (i : ℕ) (h : i < 1200) :
    gradColor i = gradColorSpec i := by
  by_cases hc : ((i : ℚ) / 1200) < 1/2 <;>
    · simp only [gradColor, gradColorSpec, lerp3, lerpChannel, hc, if_true, if_false,
        Prod.mk.injEq, ite_true, ite_false, if_pos, if_neg, not_false_iff]
      refine ⟨?_, ?_, ?_⟩ <;> (congr 1; ring)

/-- C7, witness: the interpolation statement at the concrete column 7. -/
theorem gradient_color_matches_lerp_witness : gradColor 7 = gradColorSpec 7 :=
  gradient_color_matches_lerp 7 (by norm_num)

/-- C10: for every column `i` of the 1200-wide banner, the per-column gradient
RGBA value is a valid 8-bit color: each interpolated channel lies in
`[0, 255]` and the alpha lies in the narrow band `[25, 35]`, so the overlay is
never fully opaque. -/
theorem gradient_column_valid_rgba (i : ℕ) (h : i < 1200) :
    (0 ≤ (gradColor i).1 ∧ (gradColor i).1 ≤ 255) ∧
    (0 ≤ (gradColor i).2.1 ∧ (gradColor i).2.1 ≤ 255) ∧
    (0 ≤ (gradColor i).2.2 ∧ (gradColor i).2.2 ≤ 255) ∧
    (25 ≤ gradAlpha i ∧ gradAlpha i ≤ 35) := by
  have hi0 : (0 : ℚ) ≤ (i : ℚ) := Nat.cast_nonneg i
  have hi1 : (i : ℚ) ≤ 1199 := by exact_mod_cast Nat.le_of_lt_succ h
  by_cases hc : ((i : ℚ) / 1200) < 1/2
  · simp only [gradColor, if_pos hc]
    refine ⟨⟨le_pyInt ?_ ?_, pyInt_le ?_ ?_⟩, ⟨le_pyInt ?_ ?_, pyInt_le ?_ ?_⟩,
      ⟨le_pyInt ?_ ?_, pyInt_le ?_ ?_⟩, gradAlpha_bounds i h⟩ <;> push_cast <;> linarith
  · simp only [gradColor, if_neg hc]
    push_neg at hc
    refine ⟨⟨le_pyInt ?_ ?_, pyInt_le ?_ ?_⟩, ⟨le_pyInt ?_ ?_, pyInt_le ?_ ?_⟩,
      ⟨le_pyInt ?_ ?_, pyInt_le ?_ ?_⟩, gradAlpha_bounds i h⟩ <;> push_cast <;> linarith

/-- C10, witness: validity of the gradient RGBA at the concrete column 3. -/
theorem gradient_column_valid_rgba_witness :
    (0 ≤ (gradColor 3).1 ∧ (gradColor 3).1 ≤ 255) ∧
    (0 ≤ (gradColor 3).2.1 ∧ (gradColor 3).2.1 ≤ 255) ∧
    (0 ≤ (gradColor 3).2.2 ∧ (gradColor 3).2.2 ≤ 255) ∧
    (25 ≤ gradAlpha 3 ∧ gradAlpha 3 ≤ 35) :=
  gradient_column_valid_rgba 3 (by norm_num)

/-!
### Icon drawing (`draw_icon`, source lines 11-63)

`draw_icon` receives a Pillow draw handle and mutates the wrapped canvas
through a fixed sequence of rectangle and (poly)line calls.  The embedding
returns the list of issued primitives; applying them to a canvas is modelled
further below by `applyPrims`.  Geometry model for claim C3: a Pillow
rectangle outline of width `w` is drawn inward, so its footprint is its
nominal box; a Pillow wide line segment is the rectangle obtained by offsetting
the segment by `w/2` on each side perpendicularly (no end caps), so an
axis-aligned segment extends exactly `w/2` beyond its nominal coordinates in
the perpendicular direction, and a general segment (plus the round joints
requested by `joint="curve"`) is covered by the bounding box of its endpoints
enlarged by `w/2` on all four sides.
-/

/-- An RGBA color with integer channels. -/
structure RGBA where
  r : ℤ
  g : ℤ
  b : ℤ
  a : ℤ
  deriving DecidableEq

/-- A drawing primitive issued by `draw_icon`: an outline rectangle or a
(poly)line with a stroke width. -/
inductive Prim where
  | rect (x0 y0 x1 y1 : ℚ) (c : RGBA) (w : ℤ)
  | line (pts : List (ℚ × ℚ)) (c : RGBA) (w : ℤ)
  deriving DecidableEq

/-- Stroke width of a primitive. -/
def Prim.width : Prim → ℤ
  | .rect _ _ _ _ _ w => w
  | .line _ _ w => w

/-- Ink color of a primitive. -/
def Prim.color : Prim → RGBA
  | .rect _ _ _ _ c _ => c
  | .line _ c _ => c

/-- Consecutive point pairs of a polyline. -/
def segsOf : List (ℚ × ℚ) → List ((ℚ × ℚ) × (ℚ × ℚ))
  | p :: q :: rest => (p, q) :: segsOf (q :: rest)
  | _ => []

/-- An axis-aligned closed box `[x0, x1] × [y0, y1]` of pixel coordinates. -/
structure Footprint where
  x0 : ℚ
  y0 : ℚ
  x1 : ℚ
  y1 : ℚ
  deriving DecidableEq

/-- Footprint of one wide line segment (see the geometry model above):
exact perpendicular extension for axis-aligned segments, enlarged bounding box
for the general case. -/
def segFoot (p q : ℚ × ℚ) (w : ℤ) : Footprint :=
  if p.1 = q.1 then ⟨p.1 - (w : ℚ)/2, min p.2 q.2, p.1 + (w : ℚ)/2, max p.2 q.2⟩
  else if p.2 = q.2 then ⟨min p.1 q.1, p.2 - (w : ℚ)/2, max p.1 q.1, p.2 + (w : ℚ)/2⟩
  else ⟨min p.1 q.1 - (w : ℚ)/2, min p.2 q.2 - (w : ℚ)/2,
        max p.1 q.1 + (w : ℚ)/2, max p.2 q.2 + (w : ℚ)/2⟩

/-- Footprints of a primitive: the nominal box for an outline rectangle, the
per-segment footprints for a polyline. -/
def primFoots : Prim → List Footprint
  | .rect x0 y0 x1 y1 _ _ => [⟨x0, y0, x1, y1⟩]
  | .line pts _ w => (segsOf pts).map fun s => segFoot s.1 s.2 w

/-- The footprint lies inside the square `[x, x + size] × [y, y + size]`. -/
def footWithin (x y size : ℚ) (e : Footprint) : Prop :=
  x ≤ e.x0 ∧ y ≤ e.y0 ∧ e.x1 ≤ x + size ∧ e.y1 ≤ y + size

/-- Introduction rule for `footWithin` on an explicit box. -/
lemma footWithin_mk {x y size a b c d : ℚ} (h1 : x ≤ a) (h2 : y ≤ b)
    (h3 : c ≤ x + size) (h4 : d ≤ y + size) : footWithin x y size ⟨a, b, c, d⟩ :=
  ⟨h1, h2, h3, h4⟩

/-- The wave glyph vertical offset: `32 + 8 * (1 if (i // 8) % 2 else -1)`. -/
def wave_y (i : ℕ) : ℚ := 32 + 8 * (if (i / 8) % 2 ≠ 0 then 1 else -1)

/-- The wave glyph polyline points: `for i in range(16, 49, 4)` append
`(x + i*s, y + wave_y*s)`. -/
def wavePoints (x y s : ℚ) : List (ℚ × ℚ) :=
  (List.range' 16 9 4).map fun (i : ℕ) => (x + (i : ℚ) * s, y + wave_y i * s)

/-- The fixed icon type enumeration (source line 100). -/
def icon_types : List String := ["chip", "terminal", "wave", "resistor"]

/-- Embedding of `draw_icon` (source lines 11-63): the list of drawing
primitives issued on the draw handle, in source order.  The `for` loops over
the literal offset lists and the wave sample points are kept as list
traversals. -/
def draw_icon (x y size : ℚ) (icon_type : String) (color : ℤ × ℤ × ℤ)
    (opacity : ℚ) : List Prim :=
  let alpha := icon_alpha opacity
  let cwa : RGBA := ⟨color.1, color.2.1, color.2.2, alpha⟩
  let s := size / 64
  if icon_type = "chip" then
    [Prim.rect (x + 16*s) (y + 16*s) (x + 48*s) (y + 48*s) cwa (max 1 (pyInt (2*s))),
     Prim.rect (x + 24*s) (y + 24*s) (x + 40*s) (y + 40*s) cwa (max 1 (pyInt (2*s)))]
    ++ ([20, 28, 36, 44] : List ℚ).flatMap (fun i =>
        [Prim.line [(x + i*s, y + 12*s), (x + i*s, y + 16*s)] cwa (max 1 (pyInt (2*s))),
         Prim.line [(x + i*s, y + 48*s), (x + i*s, y + 52*s)] cwa (max 1 (pyInt (2*s)))])
  else if icon_type = "terminal" then
    [Prim.rect (x + 8*s) (y + 12*s) (x + 56*s) (y + 52*s) cwa (max 1 (pyInt (2*s))),
     Prim.line [(x + 18*s, y + 26*s), (x + 24*s, y + 30*s), (x + 18*s, y + 34*s)] cwa
       (max 1 (pyInt (2*s))),
     Prim.line [(x + 32*s, y + 34*s), (x + 40*s, y + 34*s)] cwa (max 1 (pyInt (2*s)))]
  else if icon_type = "wave" then
    let points := wavePoints x y s
    [Prim.rect (x + 8*s) (y + 12*s) (x + 56*s) (y + 52*s) cwa (max 1 (pyInt (2*s)))]
    ++ (if 1 < points.length then [Prim.line points cwa (max 1 (pyInt (2*s)))] else [])
  else if icon_type = "resistor" then
    [Prim.rect (x + 16*s) (y + 28*s) (x + 48*s) (y + 36*s) cwa (max 1 (pyInt (2*s)))]
    ++ ([20, 26, 32, 38] : List ℚ).map (fun off =>
        Prim.line [(x + off*s, y + 28*s), (x + off*s, y + 36*s)] cwa (max 1 (pyInt s)))
    ++ [Prim.line [(x + 8*s, y + 32*s), (x + 16*s, y + 32*s)] cwa (max 1 (pyInt (2*s))),
        Prim.line [(x + 48*s, y + 32*s), (x + 56*s, y + 32*s)] cwa (max 1 (pyInt (2*s)))]
  else []

/-- Unfolding of the chip branch of `draw_icon`, with the pin loop unrolled. -/
lemma draw_icon_chip (x y size : ℚ) (c : ℤ × ℤ × ℤ) (o : ℚ) :
    draw_icon x y size "chip" c o =
      [Prim.rect (x + 16*(size/64)) (y + 16*(size/64)) (x + 48*(size/64)) (y + 48*(size/64))
         ⟨c.1, c.2.1, c.2.2, icon_alpha o⟩ (max 1 (pyInt (2*(size/64)))),
       Prim.rect (x + 24*(size/64)) (y + 24*(size/64)) (x + 40*(size/64)) (y + 40*(size/64))
         ⟨c.1, c.2.1, c.2.2, icon_alpha o⟩ (max 1 (pyInt (2*(size/64)))),
       Prim.line [(x + 20*(size/64), y + 12*(size/64)), (x + 20*(size/64), y + 16*(size/64))]
         ⟨c.1, c.2.1, c.2.2, icon_alpha o⟩ (max 1 (pyInt (2*(size/64)))),
       Prim.line [(x + 20*(size/64), y + 48*(size/64)), (x + 20*(size/64), y + 52*(size/64))]
         ⟨c.1, c.2.1, c.2.2, icon_alpha o⟩ (max 1 (pyInt (2*(size/64)))),
       Prim.line [(x + 28*(size/64), y + 12*(size/64)), (x + 28*(size/64), y + 16*(size/64))]
         ⟨c.1, c.2.1, c.2.2, icon_alpha o⟩ (max 1 (pyInt (2*(size/64)))),
       Prim.line [(x + 28*(size/64), y + 48*(size/64)), (x + 28*(size/64), y + 52*(size/64))]
         ⟨c.1, c.2.1, c.2.2, icon_alpha o⟩ (max 1 (pyInt (2*(size/64)))),
       Prim.line [(x + 36*(size/64), y + 12*(size/64)), (x + 36*(size/64), y + 16*(size/64))]
         ⟨c.1, c.2.1, c.2.2, icon_alpha o⟩ (max 1 (pyInt (2*(size/64)))),
       Prim.line [(x + 36*(size/64), y + 48*(size/64)), (x + 36*(size/64), y + 52*(size/64))]
         ⟨c.1, c.2.1, c.2.2, icon_alpha o⟩ (max 1 (pyInt (2*(size/64)))),
       Prim.line [(x + 44*(size/64), y + 12*(size/64)), (x + 44*(size/64), y + 16*(size/64))]
         ⟨c.1, c.2.1, c.2.2, icon_alpha o⟩ (max 1 (pyInt (2*(size/64)))),
       Prim.line [(x + 44*(size/64), y + 48*(size/64)), (x + 44*(size/64), y + 52*(size/64))]
         ⟨c.1, c.2.1, c.2.2, icon_alpha o⟩ (max 1 (pyInt (2*(size/64))))] := rfl

/-- Unfolding of the terminal branch of `draw_icon`. -/
lemma draw_icon_terminal (x y size : ℚ) (c : ℤ × ℤ × ℤ) (o : ℚ) :
    draw_icon x y size "terminal" c o =
      [Prim.rect (x + 8*(size/64)) (y + 12*(size/64)) (x + 56*(size/64)) (y + 52*(size/64))
         ⟨c.1, c.2.1, c.2.2, icon_alpha o⟩ (max 1 (pyInt (2*(size/64)))),
       Prim.line [(x + 18*(size/64), y + 26*(size/64)), (x + 24*(size/64), y + 30*(size/64)),
           (x + 18*(size/64), y + 34*(size/64))]
         ⟨c.1, c.2.1, c.2.2, icon_alpha o⟩ (max 1 (pyInt (2*(size/64)))),
       Prim.line [(x + 32*(size/64), y + 34*(size/64)), (x + 40*(size/64), y + 34*(size/64))]
         ⟨c.1, c.2.1, c.2.2, icon_alpha o⟩ (max 1 (pyInt (2*(size/64))))] := rfl

/-- The wave polyline points, evaluated. -/
lemma wavePoints_eq (x y s : ℚ) :
    wavePoints x y s =
      [(x + 16*s, y + 24*s), (x + 20*s, y + 24*s), (x + 24*s, y + 40*s),
       (x + 28*s, y + 40*s), (x + 32*s, y + 24*s), (x + 36*s, y + 24*s),
       (x + 40*s, y + 40*s), (x + 44*s, y + 40*s), (x + 48*s, y + 24*s)] := by
  simp only [wavePoints, wave_y, List.range']
  norm_num

/-- Unfolding of the wave branch of `draw_icon`. -/
lemma draw_icon_wave (x y size : ℚ) (c : ℤ × ℤ × ℤ) (o : ℚ) :
    draw_icon x y size "wave" c o =
      [Prim.rect (x + 8*(size/64)) (y + 12*(size/64)) (x + 56*(size/64)) (y + 52*(size/64))
         ⟨c.1, c.2.1, c.2.2, icon_alpha o⟩ (max 1 (pyInt (2*(size/64)))),
       Prim.line (wavePoints x y (size/64))
         ⟨c.1, c.2.1, c.2.2, icon_alpha o⟩ (max 1 (pyInt (2*(size/64))))] := by
  show _ ++ _ = _
  rw [wavePoints_eq]
  rfl

/-- Unfolding of the resistor branch of `draw_icon`, with the band loop
unrolled. -/
lemma draw_icon_resistor (x y size : ℚ) (c : ℤ × ℤ × ℤ) (o : ℚ) :
    draw_icon x y size "resistor" c o =
      [Prim.rect (x + 16*(size/64)) (y + 28*(size/64)) (x + 48*(size/64)) (y + 36*(size/64))
         ⟨c.1, c.2.1, c.2.2, icon_alpha o⟩ (max 1 (pyInt (2*(size/64)))),
       Prim.line [(x + 20*(size/64), y + 28*(size/64)), (x + 20*(size/64), y + 36*(size/64))]
         ⟨c.1, c.2.1, c.2.2, icon_alpha o⟩ (max 1 (pyInt (size/64))),
       Prim.line [(x + 26*(size/64), y + 28*(size/64)), (x + 26*(size/64), y + 36*(size/64))]
         ⟨c.1, c.2.1, c.2.2, icon_alpha o⟩ (max 1 (pyInt (size/64))),
       Prim.line [(x + 32*(size/64), y + 28*(size/64)), (x + 32*(size/64), y + 36*(size/64))]
         ⟨c.1, c.2.1, c.2.2, icon_alpha o⟩ (max 1 (pyInt (size/64))),
       Prim.line [(x + 38*(size/64), y + 28*(size/64)), (x + 38*(size/64), y + 36*(size/64))]
         ⟨c.1, c.2.1, c.2.2, icon_alpha o⟩ (max 1 (pyInt (size/64))),
       Prim.line [(x + 8*(size/64), y + 32*(size/64)), (x + 16*(size/64), y + 32*(size/64))]
         ⟨c.1, c.2.1, c.2.2, icon_alpha o⟩ (max 1 (pyInt (2*(size/64)))),
       Prim.line [(x + 48*(size/64), y + 32*(size/64)), (x + 56*(size/64), y + 32*(size/64))]
         ⟨c.1, c.2.1, c.2.2, icon_alpha o⟩ (max 1 (pyInt (2*(size/64))))] := rfl

/-- For any icon type outside the enumeration, `draw_icon` issues nothing. -/
lemma draw_icon_other (x y size : ℚ) (t : String) (c : ℤ × ℤ × ℤ) (o : ℚ)
    (h1 : t ≠ "chip") (h2 : t ≠ "terminal") (h3 : t ≠ "wave") (h4 : t ≠ "resistor") :
    draw_icon x y size t c o = [] := by
  simp [draw_icon, h1, h2, h3, h4]

/-- Containment of the footprint of a vertical segment: it extends only
horizontally by half the stroke width. -/
lemma segFoot_vert {x y size px py qy : ℚ} {w : ℤ}
    (h1 : x + (w : ℚ)/2 ≤ px) (h2 : px + (w : ℚ)/2 ≤ x + size)
    (h3 : y ≤ py) (h4 : y ≤ qy) (h5 : py ≤ y + size) (h6 : qy ≤ y + size) :
    footWithin x y size (segFoot (px, py) (px, qy) w) := by
  unfold segFoot
  rw [if_pos rfl]
  exact footWithin_mk (by linarith) (le_min h3 h4) (by linarith) (max_le h5 h6)

/-- Containment of the footprint of a horizontal segment: it extends only
vertically by half the stroke width. -/
lemma segFoot_horiz {x y size px qx py : ℚ} {w : ℤ} (hne : px ≠ qx)
    (h1 : x ≤ px) (h2 : x ≤ qx) (h3 : px ≤ x + size) (h4 : qx ≤ x + size)
    (h5 : y + (w : ℚ)/2 ≤ py) (h6 : py + (w : ℚ)/2 ≤ y + size) :
    footWithin x y size (segFoot (px, py) (qx, py) w) := by
  unfold segFoot
  rw [if_neg (by simpa using hne), if_pos rfl]
  exact footWithin_mk (le_min h1 h2) (by linarith) (max_le h3 h4) (by linarith)

/-- Containment of the footprint of an arbitrary segment, provided both
endpoints keep a margin of half the stroke width to all four sides. -/
lemma segFoot_all {x y size px py qx qy : ℚ} {w : ℤ} (hw : 0 ≤ (w : ℚ))
    (h1 : x + (w : ℚ)/2 ≤ px) (h2 : x + (w : ℚ)/2 ≤ qx)
    (h3 : px + (w : ℚ)/2 ≤ x + size) (h4 : qx + (w : ℚ)/2 ≤ x + size)
    (h5 : y + (w : ℚ)/2 ≤ py) (h6 : y + (w : ℚ)/2 ≤ qy)
    (h7 : py + (w : ℚ)/2 ≤ y + size) (h8 : qy + (w : ℚ)/2 ≤ y + size) :
    footWithin x y size (segFoot (px, py) (qx, qy) w) := by
  unfold segFoot
  dsimp only
  split_ifs with hA hB
  · exact footWithin_mk (by linarith) (le_min (by linarith) (by linarith)) (by linarith)
      (max_le (by linarith) (by linarith))
  · exact footWithin_mk (le_min (by linarith) (by linarith)) (by linarith)
      (max_le (by linarith) (by linarith)) (by linarith)
  · refine footWithin_mk ?_ ?_ ?_ ?_
    · have := le_min h1 h2
      linarith
    · have := le_min h5 h6
      linarith
    · have hx3 : px ≤ x + size - (w : ℚ)/2 := by linarith
      have hx4 : qx ≤ x + size - (w : ℚ)/2 := by linarith
      have := max_le hx3 hx4
      linarith
    · have hy3 : py ≤ y + size - (w : ℚ)/2 := by linarith
      have hy4 : qy ≤ y + size - (w : ℚ)/2 := by linarith
      have := max_le hy3 hy4
      linarith

set_option maxHeartbeats 4000000 in
/-- C3, amended: for every icon type, every anchor and every size at least 2,
all footprints of all primitives issued by `draw_icon` (rectangles, lines and
polylines, extended by half the stroke width `max(1, int(2*s))`, respectively
`max(1, int(s))` for the resistor bands, as described in the geometry model of
`segFoot`) lie within the square `[x, x + size] × [y, y + size]`.  The bound
`2 ≤ size` is needed: at `size = 1` the chip pin strokes escape the square
(see the counterexample). -/
theorem draw_icon_within_box (x y size : ℚ) (t : String) (c : ℤ × ℤ × ℤ) (o : ℚ)
    (hsize : 2 ≤ size) :
    ∀ p ∈ draw_icon x y size t c o, ∀ e ∈ primFoots p, footWithin x y size e := by
  have hs0 : (0:ℚ) < size / 64 := by linarith
  have hs : (1:ℚ)/32 ≤ size / 64 := by linarith
  have h64 : (64:ℚ) * (size/64) = size := by ring
  have hfl2 : ((pyInt (2 * (size/64)) : ℤ) : ℚ) ≤ 2 * (size/64) := pyInt_cast_le (by linarith)
  have hfl1 : ((pyInt (size/64) : ℤ) : ℚ) ≤ size/64 := pyInt_cast_le (by linarith)
  have hW2 : ((max 1 (pyInt (2 * (size/64))) : ℤ) : ℚ) ≤ 32 * (size/64) := by
    rw [Int.cast_max]
    exact max_le (by push_cast; linarith) (by linarith [hfl2])
  have hW1 : ((max 1 (pyInt (size/64)) : ℤ) : ℚ) ≤ 32 * (size/64) := by
    rw [Int.cast_max]
    exact max_le (by push_cast; linarith) (by linarith [hfl1])
  have hw2nn : (0:ℚ) ≤ ((max 1 (pyInt (2 * (size/64))) : ℤ) : ℚ) := by
    have h1 : ((1:ℤ):ℚ) ≤ ((max 1 (pyInt (2 * (size/64))) : ℤ) : ℚ) := by
      exact_mod_cast le_max_left 1 (pyInt (2 * (size/64)))
    linarith
  have hw1nn : (0:ℚ) ≤ ((max 1 (pyInt (size/64)) : ℤ) : ℚ) := by
    have h1 : ((1:ℤ):ℚ) ≤ ((max 1 (pyInt (size/64)) : ℤ) : ℚ) := by
      exact_mod_cast le_max_left 1 (pyInt (size/64))
    linarith
  intro p hp e he
  by_cases h1 : t = "chip"
  · subst h1
    rw [draw_icon_chip] at hp
    simp only [List.mem_cons, List.not_mem_nil, or_false] at hp
    rcases hp with rfl | rfl | rfl | rfl | rfl | rfl | rfl | rfl | rfl | rfl
    · simp only [primFoots, List.mem_singleton] at he
      subst he
      exact footWithin_mk (by linarith [hs0]) (by linarith [hs0])
        (by linarith [hs0, h64]) (by linarith [hs0, h64])
    · simp only [primFoots, List.mem_singleton] at he
      subst he
      exact footWithin_mk (by linarith [hs0]) (by linarith [hs0])
        (by linarith [hs0, h64]) (by linarith [hs0, h64])
    · simp only [primFoots, segsOf, List.map_cons, List.map_nil, List.mem_singleton] at he
      subst he
      apply segFoot_vert <;> linarith [hW2, hs0, h64]
    · simp only [primFoots, segsOf, List.map_cons, List.map_nil, List.mem_singleton] at he
      subst he
      apply segFoot_vert <;> linarith [hW2, hs0, h64]
    · simp only [primFoots, segsOf, List.map_cons, List.map_nil, List.mem_singleton] at he
      subst he
      apply segFoot_vert <;> linarith [hW2, hs0, h64]
    · simp only [primFoots, segsOf, List.map_cons, List.map_nil, List.mem_singleton] at he
      subst he
      apply segFoot_vert <;> linarith [hW2, hs0, h64]
    · simp only [primFoots, segsOf, List.map_cons, List.map_nil, List.mem_singleton] at he
      subst he
      apply segFoot_vert <;> linarith [hW2, hs0, h64]
    · simp only [primFoots, segsOf, List.map_cons, List.map_nil, List.mem_singleton] at he
      subst he
      apply segFoot_vert <;> linarith [hW2, hs0, h64]
    · simp only [primFoots, segsOf, List.map_cons, List.map_nil, List.mem_singleton] at he
      subst he
      apply segFoot_vert <;> linarith [hW2, hs0, h64]
    · simp only [primFoots, segsOf, List.map_cons, List.map_nil, List.mem_singleton] at he
      subst he
      apply segFoot_vert <;> linarith [hW2, hs0, h64]
  by_cases h2 : t = "terminal"
  · subst h2
    rw [draw_icon_terminal] at hp
    simp only [List.mem_cons, List.not_mem_nil, or_false] at hp
    rcases hp with rfl | rfl | rfl
    · simp only [primFoots, List.mem_singleton] at he
      subst he
      exact footWithin_mk (by linarith [hs0]) (by linarith [hs0])
        (by linarith [hs0, h64]) (by linarith [hs0, h64])
    · simp only [primFoots, segsOf, List.map_cons, List.map_nil, List.mem_cons,
        List.not_mem_nil, or_false] at he
      rcases he with rfl | rfl <;> (apply segFoot_all <;> linarith [hW2, hw2nn, hs0, h64])
    · simp only [primFoots, segsOf, List.map_cons, List.map_nil, List.mem_singleton] at he
      subst he
      apply segFoot_all <;> linarith [hW2, hw2nn, hs0, h64]
  by_cases h3 : t = "wave"
  · subst h3
    rw [draw_icon_wave, wavePoints_eq] at hp
    simp only [List.mem_cons, List.not_mem_nil, or_false] at hp
    rcases hp with rfl | rfl
    · simp only [primFoots, List.mem_singleton] at he
      subst he
      exact footWithin_mk (by linarith [hs0]) (by linarith [hs0])
        (by linarith [hs0, h64]) (by linarith [hs0, h64])
    · simp only [primFoots, segsOf, List.map_cons, List.map_nil, List.mem_cons,
        List.not_mem_nil, or_false] at he
      rcases he with rfl | rfl | rfl | rfl | rfl | rfl | rfl | rfl <;>
        (apply segFoot_all <;> linarith [hW2, hw2nn, hs0, h64])
  by_cases h4 : t = "resistor"
  · subst h4
    rw [draw_icon_resistor] at hp
    simp only [List.mem_cons, List.not_mem_nil, or_false] at hp
    rcases hp with rfl | rfl | rfl | rfl | rfl | rfl | rfl
    · simp only [primFoots, List.mem_singleton] at he
      subst he
      exact footWithin_mk (by linarith [hs0]) (by linarith [hs0])
        (by linarith [hs0, h64]) (by linarith [hs0, h64])
    · simp only [primFoots, segsOf, List.map_cons, List.map_nil, List.mem_singleton] at he
      subst he
      apply segFoot_all <;> linarith [hW1, hw1nn, hs0, h64]
    · simp only [primFoots, segsOf, List.map_cons, List.map_nil, List.mem_singleton] at he
      subst he
      apply segFoot_all <;> linarith [hW1, hw1nn, hs0, h64]
    · simp only [primFoots, segsOf, List.map_cons, List.map_nil, List.mem_singleton] at he
      subst he
      apply segFoot_all <;> linarith [hW1, hw1nn, hs0, h64]
    · simp only [primFoots, segsOf, List.map_cons, List.map_nil, List.mem_singleton] at he
      subst he
      apply segFoot_all <;> linarith [hW1, hw1nn, hs0, h64]
    · simp only [primFoots, segsOf, List.map_cons, List.map_nil, List.mem_singleton] at he
      subst he
      refine segFoot_horiz (by intro hEq; linarith) (by linarith [hs0]) (by linarith [hs0])
        (by linarith [hs0, h64]) (by linarith [hs0, h64])
        (by linarith [hW2, hs0]) (by linarith [hW2, hs0, h64])
    · simp only [primFoots, segsOf, List.map_cons, List.map_nil, List.mem_singleton] at he
      subst he
      refine segFoot_horiz (by intro hEq; linarith) (by linarith [hs0]) (by linarith [hs0])
        (by linarith [hs0, h64]) (by linarith [hs0, h64])
        (by linarith [hW2, hs0]) (by linarith [hW2, hs0, h64])
  rw [draw_icon_other x y size t c o h1 h2 h3 h4] at hp
  simp at hp

/-- C3, counterexample: at anchor `(0, 0)` and size 1 (a size greater than 0),
the chip pin stroke at horizontal offset `20 s` has width `max(1, int(2 s)) = 1`
and footprint reaching `20/64 - 1/2 = -3/16 < 0`, so it escapes the square
`[0, 1] × [0, 1]` on the left: the claimed containment for every size greater
than zero is false. -/
theorem draw_icon_escapes_box_at_size_one :
    ¬ (∀ p ∈ draw_icon 0 0 1 "chip" (102, 126, 234) (2/25),
        ∀ e ∈ primFoots p, footWithin 0 0 1 e) := by
  intro h
  have hw : max 1 (pyInt (2 * ((1:ℚ)/64))) = 1 := by
    rw [show (2 * ((1:ℚ)/64)) = 1/32 by norm_num, pyInt_of_nonneg (by norm_num)]
    norm_num
  have hmem : (Prim.line [((0:ℚ) + 20*((1:ℚ)/64), (0:ℚ) + 12*((1:ℚ)/64)),
      ((0:ℚ) + 20*((1:ℚ)/64), (0:ℚ) + 16*((1:ℚ)/64))]
      ⟨102, 126, 234, icon_alpha (2/25)⟩ (max 1 (pyInt (2*((1:ℚ)/64))))) ∈
      draw_icon 0 0 1 "chip" (102, 126, 234) (2/25) := by
    rw [draw_icon_chip]
    simp
  have hfoot := h _ hmem
    (segFoot ((0:ℚ) + 20*((1:ℚ)/64), (0:ℚ) + 12*((1:ℚ)/64))
      ((0:ℚ) + 20*((1:ℚ)/64), (0:ℚ) + 16*((1:ℚ)/64)) (max 1 (pyInt (2*((1:ℚ)/64)))))
    (by simp [primFoots, segsOf])
  rw [hw] at hfoot
  have hx := hfoot.1
  simp only [segFoot] at hx
  norm_num at hx

/-- C3, witness: the amended containment statement applied at the concrete
input `x = 0`, `y = 0`, `size = 64`, icon type chip, for the footprint of the
outer rectangle. -/
theorem draw_icon_within_box_witness :
    footWithin 0 0 64 ⟨(0:ℚ) + 16*((64:ℚ)/64), (0:ℚ) + 16*((64:ℚ)/64),
      (0:ℚ) + 48*((64:ℚ)/64), (0:ℚ) + 48*((64:ℚ)/64)⟩ :=
  draw_icon_within_box 0 0 64 "chip" (102, 126, 234) (2/25) (by norm_num)
    (Prim.rect ((0:ℚ) + 16*((64:ℚ)/64)) ((0:ℚ) + 16*((64:ℚ)/64)) ((0:ℚ) + 48*((64:ℚ)/64))
      ((0:ℚ) + 48*((64:ℚ)/64)) ⟨102, 126, 234, icon_alpha (2/25)⟩
      (max 1 (pyInt (2*((64:ℚ)/64)))))
    (by rw [draw_icon_chip]; simp)
    ⟨(0:ℚ) + 16*((64:ℚ)/64), (0:ℚ) + 16*((64:ℚ)/64),
      (0:ℚ) + 48*((64:ℚ)/64), (0:ℚ) + 48*((64:ℚ)/64)⟩
    (by simp [primFoots])

/-- C9: for every size greater than zero (and in fact for every size), every
primitive issued by `draw_icon` has stroke width at least 1 pixel, and the
width is exactly `max(1, int(2*s))` with `s = size/64`, except for the
resistor band strokes whose width is `max(1, int(s))`. -/
theorem draw_icon_stroke_width_ge_one (x y size : ℚ) (t : String) (c : ℤ × ℤ × ℤ)
    (o : ℚ) (hsize : 0 < size) (p : Prim) (hp : p ∈ draw_icon x y size t c o) :
    1 ≤ p.width ∧
      (p.width = max 1 (pyInt (2 * (size/64))) ∨ p.width = max 1 (pyInt (size/64))) := by
  by_cases h1 : t = "chip"
  · subst h1
    rw [draw_icon_chip] at hp
    simp only [List.mem_cons, List.not_mem_nil, or_false] at hp
    rcases hp with rfl | rfl | rfl | rfl | rfl | rfl | rfl | rfl | rfl | rfl <;>
      exact ⟨le_max_left _ _, Or.inl rfl⟩
  by_cases h2 : t = "terminal"
  · subst h2
    rw [draw_icon_terminal] at hp
    simp only [List.mem_cons, List.not_mem_nil, or_false] at hp
    rcases hp with rfl | rfl | rfl <;> exact ⟨le_max_left _ _, Or.inl rfl⟩
  by_cases h3 : t = "wave"
  · subst h3
    rw [draw_icon_wave] at hp
    simp only [List.mem_cons, List.not_mem_nil, or_false] at hp
    rcases hp with rfl | rfl <;> exact ⟨le_max_left _ _, Or.inl rfl⟩
  by_cases h4 : t = "resistor"
  · subst h4
    rw [draw_icon_resistor] at hp
    simp only [List.mem_cons, List.not_mem_nil, or_false] at hp
    rcases hp with rfl | rfl | rfl | rfl | rfl | rfl | rfl
    · exact ⟨le_max_left _ _, Or.inl rfl⟩
    · exact ⟨le_max_left _ _, Or.inr rfl⟩
    · exact ⟨le_max_left _ _, Or.inr rfl⟩
    · exact ⟨le_max_left _ _, Or.inr rfl⟩
    · exact ⟨le_max_left _ _, Or.inr rfl⟩
    · exact ⟨le_max_left _ _, Or.inl rfl⟩
    · exact ⟨le_max_left _ _, Or.inl rfl⟩
  rw [draw_icon_other x y size t c o h1 h2 h3 h4] at hp
  simp at hp

/-- C9, witness: the stroke width statement applied at the concrete input
`x = 0`, `y = 0`, `size = 64`, icon type chip, outer rectangle. -/
theorem draw_icon_stroke_width_ge_one_witness :
    1 ≤ (Prim.rect ((0:ℚ) + 16*((64:ℚ)/64)) ((0:ℚ) + 16*((64:ℚ)/64)) ((0:ℚ) + 48*((64:ℚ)/64))
      ((0:ℚ) + 48*((64:ℚ)/64)) ⟨102, 126, 234, icon_alpha (2/25)⟩
      (max 1 (pyInt (2*((64:ℚ)/64))))).width ∧
    ((Prim.rect ((0:ℚ) + 16*((64:ℚ)/64)) ((0:ℚ) + 16*((64:ℚ)/64)) ((0:ℚ) + 48*((64:ℚ)/64))
      ((0:ℚ) + 48*((64:ℚ)/64)) ⟨102, 126, 234, icon_alpha (2/25)⟩
      (max 1 (pyInt (2*((64:ℚ)/64))))).width = max 1 (pyInt (2 * ((64:ℚ)/64))) ∨
     (Prim.rect ((0:ℚ) + 16*((64:ℚ)/64)) ((0:ℚ) + 16*((64:ℚ)/64)) ((0:ℚ) + 48*((64:ℚ)/64))
      ((0:ℚ) + 48*((64:ℚ)/64)) ⟨102, 126, 234, icon_alpha (2/25)⟩
      (max 1 (pyInt (2*((64:ℚ)/64))))).width = max 1 (pyInt ((64:ℚ)/64))) :=
  draw_icon_stroke_width_ge_one 0 0 64 "chip" (102, 126, 234) (2/25) (by norm_num) _
    (by rw [draw_icon_chip]; simp)

/-!
### Canvas pipeline (`generate_banner`, source lines 65-183)

Pillow objects are modelled as follows.  An image is a pixel function together
with its declared dimensions; values of the pixel function outside
`[0, w) × [0, h)` are irrelevant.  Drawing with a mode RGBA draw handle, pasting
with an RGBA mask and flattening onto an RGB background all blend source over
destination through the 8-bit integer formula of `pastePix`.  The external
effects the script depends on are collected in `RunEnv`: the outcome of opening
and decoding the logo (`none` models any exception in the `try` block), the
outcomes of the two font loads, and the pixel-level behaviour of the LANCZOS
resampler, of the Gaussian blur and of text glyph rasterization, none of which
any claim inspects.  The `random` module is imported by the script but never
called; its entropy stream is modelled by the explicit `rand` argument threaded
to `generate_banner`, which the body never consumes.

One faithful subtlety: the script binds `draw = ImageDraw.Draw(img, "RGBA")`
before rebinding `img = Image.alpha_composite(img, gradient)`.  The handle
keeps wrapping the original background image, so the eight `draw_icon` calls
and the fallback `JW` text mutate a canvas that is discarded; only with
`draw = ImageDraw.Draw(img, "RGBA")` after the logo step (source line 163) does
the handle target the composited image again.  The model threads that stale
canvas explicitly and drops it exactly where the script does.
-/

/-- An RGB color with integer channels (an image mode RGB pixel). -/
structure RGB where
  r : ℤ
  g : ℤ
  b : ℤ
  deriving DecidableEq

/-- An image: declared dimensions plus a pixel function. -/
structure Img (α : Type) where
  w : ℕ
  h : ℕ
  pix : ℤ → ℤ → α

/-- Model of `Image.new` with a constant fill color. -/
def newImg (w h : ℕ) (c : RGBA) : Img RGBA := ⟨w, h, fun _ _ => c⟩

/-- Blend a source color over a destination color using the source alpha as
mask, with 8-bit integer arithmetic; this models mode RGBA ink application,
`paste` with an RGBA mask, and the final flatten. -/
def pastePix (src dst : RGBA) : RGBA :=
  ⟨(src.r * src.a + dst.r * (255 - src.a)) / 255,
   (src.g * src.a + dst.g * (255 - src.a)) / 255,
   (src.b * src.a + dst.b * (255 - src.a)) / 255,
   (src.a * src.a + dst.a * (255 - src.a)) / 255⟩

/-- Standard over-compositing of one RGBA pixel onto another, the model of
`Image.alpha_composite`. -/
def overPix (src dst : RGBA) : RGBA :=
  let ao := src.a * 255 + dst.a * (255 - src.a)
  if ao = 0 then ⟨0, 0, 0, 0⟩
  else ⟨(src.r * src.a * 255 + dst.r * dst.a * (255 - src.a)) / ao,
        (src.g * src.a * 255 + dst.g * dst.a * (255 - src.a)) / ao,
        (src.b * src.a * 255 + dst.b * dst.a * (255 - src.a)) / ao,
        ao / 255⟩

/-- Model of `Image.alpha_composite(im1, im2)`: `im2` over `im1`. -/
def alphaComposite (im1 im2 : Img RGBA) : Img RGBA :=
  ⟨im1.w, im1.h, fun i j => overPix (im2.pix i j) (im1.pix i j)⟩

/-- The RGBA value of gradient column `i`. -/
def gradRGBA (i : ℕ) : RGBA :=
  ⟨(gradColor i).1, (gradColor i).2.1, (gradColor i).2.2, gradAlpha i⟩

/-- The gradient overlay image: the loop draws the vertical line of column `i`
with color `gradRGBA i` into a fresh fully transparent image; the columns are
pairwise disjoint, so the resulting image is this per-column function. -/
def gradientImg : Img RGBA :=
  ⟨1200, 630, fun i j =>
    let _ := j
    if 0 ≤ i ∧ i < 1200 then gradRGBA i.toNat else ⟨0, 0, 0, 0⟩⟩

/-- Whether the integer pixel `(i, j)` lies in a footprint box. -/
def extContains (e : Footprint) (i j : ℤ) : Bool :=
  decide (e.x0 ≤ (i : ℚ) ∧ (i : ℚ) ≤ e.x1 ∧ e.y0 ≤ (j : ℚ) ∧ (j : ℚ) ≤ e.y1)

/-- Rasterization model of a primitive: an outline rectangle covers the ring
between its nominal box and the box shrunk inward by the stroke width (Pillow
draws rectangle outlines inward); a polyline covers the footprints of its
segments. -/
def primCovers (p : Prim) (i j : ℤ) : Bool :=
  match p with
  | .rect x0 y0 x1 y1 _ w =>
      extContains ⟨x0, y0, x1, y1⟩ i j &&
        !(extContains ⟨x0 + (w : ℚ), y0 + (w : ℚ), x1 - (w : ℚ), y1 - (w : ℚ)⟩ i j)
  | .line pts _ w => (segsOf pts).any fun sp => extContains (segFoot sp.1 sp.2 w) i j

/-- Apply one primitive to a canvas: covered pixels receive the ink blended
over the previous value. -/
def applyPrim (img : Img RGBA) (p : Prim) : Img RGBA :=
  { img with pix := fun i j =>
      if primCovers p i j then pastePix p.color (img.pix i j) else img.pix i j }

/-- Apply a primitive list (the draw calls of one `draw_icon` invocation) in
order. -/
def applyPrims (img : Img RGBA) (ps : List Prim) : Img RGBA := ps.foldl applyPrim img

/-- A decoded logo image. -/
structure LogoImg where
  w : ℕ
  h : ℕ
  pix : ℤ → ℤ → RGBA

/-- A font handle: a truetype font at a path and size, or the builtin fallback
returned by `ImageFont.load_default()`. -/
inductive Font where
  | truetype (path : String) (size : ℕ)
  | fallback

/-- Path of the bold DejaVu font used by the script. -/
def dejaVuBold : String := "/usr/share/fonts/truetype/dejavu/DejaVuSans-Bold.ttf"

/-- Path of the regular DejaVu font used by the script. -/
def dejaVuSans : String := "/usr/share/fonts/truetype/dejavu/DejaVuSans.ttf"

/-- Model of `paste(l, (x0, y0), l)`: blend the pasted image over the canvas
inside its rectangle, using its own alpha as mask. -/
def paste (img : Img RGBA) (x0 y0 : ℤ) (l : LogoImg) : Img RGBA :=
  { img with pix := fun i j =>
      if x0 ≤ i ∧ i < x0 + (l.w : ℤ) ∧ y0 ≤ j ∧ j < y0 + (l.h : ℤ) then
        pastePix (l.pix (i - x0) (j - y0)) (img.pix i j)
      else img.pix i j }

/-- Model of `draw.text`: pixels covered by the rasterized glyphs (as reported
by the environment) receive the fill color. -/
def drawText (cover : ℤ × ℤ → String → Font → ℤ → ℤ → Bool) (img : Img RGBA)
    (pos : ℤ × ℤ) (s : String) (f : Font) (fill : RGBA) : Img RGBA :=
  { img with pix := fun i j =>
      if cover pos s f i j then pastePix fill (img.pix i j) else img.pix i j }

/-- The filesystem and library behaviour one run of the script observes. -/
structure RunEnv where
  /-- Outcome of `Image.open("docs/brand/Logo.png").convert("RGBA")`: `none`
  models any exception raised while loading or decoding. -/
  logo : Option LogoImg
  /-- Whether the truetype load for the fallback `JW` mark succeeds. -/
  logoFontOk : Bool
  /-- Whether the truetype loads for the three text fonts succeed. -/
  textFontsOk : Bool
  /-- Pixel behaviour of LANCZOS resampling to a requested size. -/
  resamplePix : LogoImg → ℕ → ℕ → ℤ → ℤ → RGBA
  /-- Pixel behaviour of `GaussianBlur(radius=30)`. -/
  blurPix : (ℤ → ℤ → RGBA) → ℤ → ℤ → RGBA
  /-- Which pixels the glyphs of a text call cover. -/
  textCover : ℤ × ℤ → String → Font → ℤ → ℤ → Bool

/-- Events of one run, in execution order. -/
inductive Ev where
  | iconDrawn (t : String)
  | glowPasted
  | logoPasted
  | jwDrawn
  | textDrawn (s : String)
  | saved (path : String)
  deriving DecidableEq

/-- The fixed icon descriptor list (source lines 101-111). -/
def icon_positions : List (ℚ × ℚ × ℚ × String × (ℤ × ℤ × ℤ) × ℚ) :=
  [(80, 80, 48, "chip", (102, 126, 234), 0.08),
   (180, 450, 32, "terminal", (14, 165, 233), 0.12),
   (950, 120, 56, "wave", (244, 114, 182), 0.10),
   (1050, 500, 40, "resistor", (102, 126, 234), 0.09),
   (280, 150, 24, "chip", (14, 165, 233), 0.15),
   (920, 380, 36, "terminal", (244, 114, 182), 0.11),
   (120, 520, 28, "wave", (102, 126, 234), 0.13),
   (1100, 250, 32, "chip", (14, 165, 233), 0.10)]

/-- The tail of the run shared by all logo paths (source lines 149-172): load
the three fonts with their fallback, rebind the draw handle to the current
image, and draw the three text lines. -/
def textLines (env : RunEnv) (img : Img RGBA) (evs : List Ev) : Img RGBA × List Ev :=
  let fonts := if env.textFontsOk then
      (Font.truetype dejaVuBold 60, Font.truetype dejaVuSans 30, Font.truetype dejaVuSans 21)
    else (Font.fallback, Font.fallback, Font.fallback)
  let t1 := drawText env.textCover img (480, 230) "Josh Wentworth" fonts.1 ⟨255, 255, 255, 255⟩
  let t2 := drawText env.textCover t1 (480, 315) "Multidisciplinary Engineer" fonts.2.1
    ⟨148, 163, 184, 255⟩
  let t3 := drawText env.textCover t2 (480, 375) "Software × Hardware × Fabrication" fonts.2.2
    ⟨14, 165, 233, 255⟩
  (t3, evs ++ [Ev.textDrawn "Josh Wentworth", Ev.textDrawn "Multidisciplinary Engineer",
    Ev.textDrawn "Software × Hardware × Fabrication"])

/-- The RGBA stage of `generate_banner` (source lines 65-172): background,
gradient composite, icon draws (on the stale handle), logo or fallback, text.
Returns the image that will be flattened, plus the run events.  The `rand`
argument is the entropy stream of the imported `random` module; the body never
consumes it, mirroring the script, which imports `random` but never calls it. -/
def compose_rgba (env : RunEnv) (rand : ℕ → ℕ) : Img RGBA × List Ev :=
  let _ := rand
  let img0 := newImg 1200 630 ⟨15, 23, 42, 255⟩
  let img1 := alphaComposite img0 gradientImg
  let staleIcons := icon_positions.foldl
    (fun im d => match d with
      | (x, y, sz, icon, col, opa) => applyPrims im (draw_icon x y sz icon col opa)) img0
  let iconEvs := icon_positions.map (fun d => Ev.iconDrawn d.2.2.2.1)
  match env.logo with
  | some logo =>
      let aspect : ℚ := (logo.w : ℚ) / (logo.h : ℚ)
      let logo_width : ℤ := pyInt (340 * aspect)
      let resized : LogoImg := ⟨logo_width.toNat, 340, env.resamplePix logo logo_width.toNat 340⟩
      let glow : LogoImg := ⟨resized.w, resized.h, env.blurPix resized.pix⟩
      let logo_y : ℤ := (630 - 340) / 2
      let i1 := paste img1 40 logo_y glow
      let i2 := paste i1 40 logo_y glow
      let i3 := paste i2 40 logo_y glow
      let i4 := paste i3 40 logo_y resized
      let _ := staleIcons
      textLines env i4 (iconEvs ++ [Ev.glowPasted, Ev.glowPasted, Ev.glowPasted, Ev.logoPasted])
  | none =>
      if env.logoFontOk then
        let _ := drawText env.textCover staleIcons (100, 250) "JW"
          (Font.truetype dejaVuBold 140) ⟨14, 165, 233, 255⟩
        textLines env img1 (iconEvs ++ [Ev.jwDrawn])
      else
        let _ := staleIcons
        textLines env img1 iconEvs

/-- Model of the final flatten (source lines 175-176): a fresh RGB image of
the fixed dimensions filled with the background color, onto which the RGBA
image is pasted with itself as mask. -/
def flatten (bg : RGB) (img : Img RGBA) : Img RGB :=
  ⟨1200, 630, fun i j =>
    if 0 ≤ i ∧ i < 1200 ∧ 0 ≤ j ∧ j < 630 then
      ⟨(img.pix i j).r * (img.pix i j).a / 255 + bg.r * (255 - (img.pix i j).a) / 255,
       (img.pix i j).g * (img.pix i j).a / 255 + bg.g * (255 - (img.pix i j).a) / 255,
       (img.pix i j).b * (img.pix i j).a / 255 + bg.b * (255 - (img.pix i j).a) / 255⟩
    else bg⟩

/-- Flattening of one pixel, for stating what `flatten` does pointwise. -/
def flattenPix (bg : RGB) (src : RGBA) : RGB :=
  ⟨src.r * src.a / 255 + bg.r * (255 - src.a) / 255,
   src.g * src.a / 255 + bg.g * (255 - src.a) / 255,
   src.b * src.a / 255 + bg.b * (255 - src.a) / 255⟩

/-- Embedding of `generate_banner` (source lines 65-183): the RGBA stage, the
flatten onto the opaque background `(15, 23, 42)` and the JPEG write. -/
def generate_banner (env : RunEnv) (rand : ℕ → ℕ) : Img RGB × List Ev :=
  let res := compose_rgba env rand
  (flatten ⟨15, 23, 42⟩ res.1, res.2 ++ [Ev.saved "web/static/banner.jpg"])

/-- C2: the banner generation is deterministic.  For identical filesystem
inputs (same logo decode outcome, same font availability, same library pixel
behaviour, all collected in `env`) two runs produce identical pixel contents
and events, whatever the entropy stream of the imported `random` module
delivers in either run: the body of `generate_banner` never consumes the
stream, mirroring the script, which imports `random` but never calls it. -/
theorem generate_banner_deterministic (env : RunEnv) (rand1 rand2 : ℕ → ℕ) :
    generate_banner env rand1 = generate_banner env rand2 := rfl

/-- C8: for every icon type outside the enumeration `{chip, terminal, wave,
resistor}`, `draw_icon` issues no draw call at all (no branch matches, no
error is modelled because the branch fall-through is total) and applying its
output to any canvas leaves every pixel unchanged. -/
theorem draw_icon_unknown_type_noop (t : String) (ht : t ∉ icon_types) (x y size : ℚ)
    (c : ℤ × ℤ × ℤ) (o : ℚ) (img : Img RGBA) :
    draw_icon x y size t c o = [] ∧ applyPrims img (draw_icon x y size t c o) = img := by
  simp only [icon_types, List.mem_cons, List.mem_singleton, not_or] at ht
  obtain ⟨h1, h2, h3, h4, -⟩ := ht
  have he : draw_icon x y size t c o = [] := draw_icon_other x y size t c o h1 h2 h3 h4
  exact ⟨he, by rw [he]; rfl⟩

/-- C8, witness: the no-op statement at the concrete icon type `star`. -/
theorem draw_icon_unknown_type_noop_witness :
    draw_icon 0 0 64 "star" (102, 126, 234) (2/25) = [] ∧
      applyPrims (newImg 1200 630 ⟨15, 23, 42, 255⟩)
        (draw_icon 0 0 64 "star" (102, 126, 234) (2/25)) =
        newImg 1200 630 ⟨15, 23, 42, 255⟩ :=
  draw_icon_unknown_type_noop "star" (by decide) 0 0 64 (102, 126, 234) (2/25)
    (newImg 1200 630 ⟨15, 23, 42, 255⟩)

/-- C5: the logo and fallback step never raises, modelled by the totality of
`generate_banner` over every load outcome.  When the logo load fails, the run
falls back to the `JW` text mark call when the fallback font loads (the call
executes on the draw handle, which still wraps the stale pre-composite canvas,
see the pipeline notes), silently omits the mark when the fallback font load
fails too, and in both cases the remaining text renders and the output file is
written. -/
theorem logo_fallback_never_raises (env : RunEnv) (rand : ℕ → ℕ)
    (hlogo : env.logo = none) :
    (env.logoFontOk = true → Ev.jwDrawn ∈ (generate_banner env rand).2) ∧
    (env.logoFontOk = false → Ev.jwDrawn ∉ (generate_banner env rand).2) ∧
    Ev.saved "web/static/banner.jpg" ∈ (generate_banner env rand).2 ∧
    Ev.textDrawn "Josh Wentworth" ∈ (generate_banner env rand).2 ∧
    Ev.logoPasted ∉ (generate_banner env rand).2 := by
  cases hfont : env.logoFontOk <;>
    simp [generate_banner, compose_rgba, textLines, hlogo, hfont, icon_positions]

/-- C5, witness: the fallback statement at a concrete environment whose logo
load fails and whose fallback font loads. -/
theorem logo_fallback_never_raises_witness :
    ((RunEnv.mk none true true (fun _ _ _ _ _ => ⟨0, 0, 0, 0⟩) (fun f => f)
        (fun _ _ _ _ _ => false)).logoFontOk = true →
      Ev.jwDrawn ∈ (generate_banner (RunEnv.mk none true true
        (fun _ _ _ _ _ => ⟨0, 0, 0, 0⟩) (fun f => f) (fun _ _ _ _ _ => false)) id).2) ∧
    ((RunEnv.mk none true true (fun _ _ _ _ _ => ⟨0, 0, 0, 0⟩) (fun f => f)
        (fun _ _ _ _ _ => false)).logoFontOk = false →
      Ev.jwDrawn ∉ (generate_banner (RunEnv.mk none true true
        (fun _ _ _ _ _ => ⟨0, 0, 0, 0⟩) (fun f => f) (fun _ _ _ _ _ => false)) id).2) ∧
    Ev.saved "web/static/banner.jpg" ∈ (generate_banner (RunEnv.mk none true true
      (fun _ _ _ _ _ => ⟨0, 0, 0, 0⟩) (fun f => f) (fun _ _ _ _ _ => false)) id).2 ∧
    Ev.textDrawn "Josh Wentworth" ∈ (generate_banner (RunEnv.mk none true true
      (fun _ _ _ _ _ => ⟨0, 0, 0, 0⟩) (fun f => f) (fun _ _ _ _ _ => false)) id).2 ∧
    Ev.logoPasted ∉ (generate_banner (RunEnv.mk none true true
      (fun _ _ _ _ _ => ⟨0, 0, 0, 0⟩) (fun f => f) (fun _ _ _ _ _ => false)) id).2 :=
  logo_fallback_never_raises (RunEnv.mk none true true
    (fun _ _ _ _ _ => ⟨0, 0, 0, 0⟩) (fun f => f) (fun _ _ _ _ _ => false)) id rfl

/-- C6: in every execution path (logo loaded with arbitrary dimensions, text
fallback, or fallback font missing), the image written by `generate_banner` has
exactly the dimensions 1200 by 630, the RGBA stage it flattens also has those
dimensions, and every pixel of the written image is the RGBA pixel flattened
onto the fixed background color `(15, 23, 42)` into the three-channel opaque
RGB space. -/
theorem banner_fixed_dims_and_flatten (env : RunEnv) (rand : ℕ → ℕ)
    (i : Fin 1200) (j : Fin 630) :
    (generate_banner env rand).1.w = 1200 ∧ (generate_banner env rand).1.h = 630 ∧
    (compose_rgba env rand).1.w = 1200 ∧ (compose_rgba env rand).1.h = 630 ∧
    (generate_banner env rand).1.pix ((i : ℕ) : ℤ) ((j : ℕ) : ℤ) =
      flattenPix ⟨15, 23, 42⟩ ((compose_rgba env rand).1.pix ((i : ℕ) : ℤ) ((j : ℕ) : ℤ)) := by
  have hcw : (compose_rgba env rand).1.w = 1200 ∧ (compose_rgba env rand).1.h = 630 := by
    rcases hl : env.logo with _ | logo <;> cases hf : env.logoFontOk <;>
      simp [compose_rgba, textLines, drawText, paste, alphaComposite, newImg, hl, hf]
  have h0i : (0:ℤ) ≤ ((i : ℕ) : ℤ) := Int.natCast_nonneg _
  have h1i : ((i : ℕ) : ℤ) < 1200 := by exact_mod_cast i.isLt
  have h0j : (0:ℤ) ≤ ((j : ℕ) : ℤ) := Int.natCast_nonneg _
  have h1j : ((j : ℕ) : ℤ) < 630 := by exact_mod_cast j.isLt
  refine ⟨rfl, rfl, hcw.1, hcw.2, ?_⟩
  show (flatten ⟨15, 23, 42⟩ (compose_rgba env rand).1).pix _ _ = _
  simp only [flatten]
  rw [if_pos ⟨h0i, h1i, h0j, h1j⟩]
  rfl
